import Mathlib

/-!
# Verification of the fluvio connector-package configuration module

A shallow embedding of `crates/fluvio-connector-package/src/config/mod.rs`:
the versioned `ConnectorConfig` envelope with its custom version-sniffing
deserialization, the `SecretName` validated string type, and the derived
accessors (`direction`, `image`, `secrets`).

The YAML text layer (`serde_yaml`) is external to the crate; documents are
modelled as generic key/value trees (`YValue`), with dedicated leaf
constructors for the externally-codec'd scalar types (durations, byte sizes)
whose textual grammars the crate treats as given.  Serialization and
deserialization are modelled tree-level, mirroring the serde derives and the
hand-written `Deserialize` impls in the source.
-/

namespace Fluvio

/-- A generic structured document tree: the model of a decoded YAML value.
Scalars handled by external codecs (human durations via `humantime_serde`,
byte sizes via `bytesize_serde`) appear as dedicated leaves carrying the
decoded value, since the crate treats their textual grammars as opaque. -/
inductive YValue where
  | null : YValue
  | str (s : String) : YValue
  | nat (n : Nat) : YValue
  | duration (millis : Nat) : YValue
  | bytesize (bytes : Nat) : YValue
  | seq (items : List YValue) : YValue
  | map (entries : List (String × YValue)) : YValue

/-- Modelled from the spec: `Direction` lives in `crate::metadata` (outside the
given slice); the spec describes it as a two-valued source/destination
classification. -/
inductive Direction where
  | source : Direction
  | dest : Direction
deriving DecidableEq

/-- Modelled from the spec: `Compression` comes from the external
`fluvio_compression` crate; the spec fixes its value set
`{none, gzip, snappy, lz4, zstd}` and its textual codec. -/
inductive Compression where
  | none : Compression
  | gzip : Compression
  | snappy : Compression
  | lz4 : Compression
  | zstd : Compression
deriving DecidableEq

def Compression.toStr : Compression → String
  | .none => "none"
  | .gzip => "gzip"
  | .snappy => "snappy"
  | .lz4 => "lz4"
  | .zstd => "zstd"

def Compression.fromStr (s : String) : Except String Compression :=
  if s == "none" then .ok .none
  else if s == "gzip" then .ok .gzip
  else if s == "snappy" then .ok .snappy
  else if s == "lz4" then .ok .lz4
  else if s == "zstd" then .ok .zstd
  else .error ("unknown variant `" ++ s ++
    "`, expected one of `none`, `gzip`, `snappy`, `lz4`, `zstd`")

/-- `SecretName`: wrapper over a string (field `inner` in the source). -/
structure SecretName where
  inner : String
deriving DecidableEq

/-- Rust `char::is_ascii_alphabetic`. -/
def isAsciiAlphabetic (c : Char) : Bool :=
  ('A' ≤ c && c ≤ 'Z') || ('a' ≤ c && c ≤ 'z')

/-- Rust `char::is_ascii_digit`. -/
def isAsciiDigit (c : Char) : Bool :=
  '0' ≤ c && c ≤ '9'

/-- Rust `char::is_ascii_alphanumeric`. -/
def isAsciiAlphanumeric (c : Char) : Bool :=
  isAsciiAlphabetic c || isAsciiDigit c

/-- `SecretName::validate` (config/mod.rs lines 183-204): empty check, then
character-set check, then leading-digit check, each with its message. -/
def SecretName.validate (s : String) : Except String Unit :=
  if s.toList.length = 0 then
    .error "Secret name cannot be empty"
  else if !(s.toList.all fun c => isAsciiAlphanumeric c || c == '_') then
    .error ("Secret name `" ++ s ++
      "` can only contain alphanumeric ASCII characters and underscores")
  else if isAsciiDigit s.toList.headI then
    .error ("Secret name `" ++ s ++ "` cannot start with a number")
  else
    .ok ()

/-- `impl FromStr for SecretName`: build the wrapper, validate, return it. -/
def SecretName.fromStr (s : String) : Except String SecretName :=
  match SecretName.validate s with
  | .ok _ => .ok ⟨s⟩
  | .error e => .error e

/-- `impl Default for SecretName` (derived): `String::default()` is `""`. -/
def SecretName.defaultInstance : SecretName := ⟨""⟩

/-- `impl Deserialize for SecretName`: decode a string, validate it. -/
def SecretName.deserialize (v : YValue) : Except String SecretName :=
  match v with
  | .str s =>
    match SecretName.validate s with
    | .ok _ => .ok ⟨s⟩
    | .error e => .error e
  | _ => .error "invalid type: expected a string"

/-- `SecretConfig`: `{ name: SecretName }`. -/
structure SecretConfig where
  name : SecretName
deriving DecidableEq

structure ConsumerParameters where
  partition : Option Nat
  max_bytes : Option Nat
deriving DecidableEq

structure ProducerParameters where
  linger : Option Nat
  compression : Option Compression
  batch_size : Option Nat
deriving DecidableEq

structure MetaConfig where
  name : String
  type_ : String
  topic : String
  version : String
  producer : Option ProducerParameters
  consumer : Option ConsumerParameters
  secrets : Option (List SecretConfig)
deriving DecidableEq

/-- Modelled from the spec: `TransformationConfig` comes from the external
`fluvio_smartengine` crate and is an opaque validated sub-document whose
internal shape this core never inspects; its steps are modelled as opaque
scalar documents, carried under its wire-form `transforms` key. -/
structure TransformationConfig where
  transforms : List String
deriving DecidableEq

structure ConnectorConfigV1 where
  meta : MetaConfig
  transforms : Option TransformationConfig
deriving DecidableEq

inductive ConnectorConfig where
  | V0_0_0 (c : ConnectorConfigV1) : ConnectorConfig
  | V0_1_0 (c : ConnectorConfigV1) : ConnectorConfig
deriving DecidableEq

def SOURCE_SUFFIX : String := "-source"
def IMAGE_PREFFIX : String := "infinyon/fluvio-connect"

/-- Model of Rust `str::ends_with`: suffix match on the character sequence. -/
def strEndsWith (s suffix : String) : Bool :=
  suffix.toList.isSuffixOf s.toList

/-- `MetaConfig::direction`. -/
def MetaConfig.direction (m : MetaConfig) : Direction :=
  if strEndsWith m.type_ SOURCE_SUFFIX then Direction.source else Direction.dest

/-- `MetaConfig::image`. -/
def MetaConfig.image (m : MetaConfig) : String :=
  IMAGE_PREFFIX ++ "-" ++ m.type_ ++ ":" ++ m.version

/-- `MetaConfig::secrets`: `HashSet::from_iter` over the optional list,
modelled as the finite set of its elements. -/
def MetaConfig.secretsSet (m : MetaConfig) : Finset SecretConfig :=
  (m.secrets.getD []).toFinset

/-- `ConnectorConfig::secrets`: set for `V0_1_0`, `Default::default()` (the
empty set) for `V0_0_0`. -/
def ConnectorConfig.secrets : ConnectorConfig → Finset SecretConfig
  | .V0_1_0 c => c.meta.secretsSet
  | .V0_0_0 _ => ∅

/-- The underlying element list of `ConnectorConfig::secrets` (declaration
order for `V0_1_0`, empty for `V0_0_0`); `validate_secret_names` iterates the
`HashSet`, whose element collection this list carries (iteration order of the
hash set is unspecified; per-element validation makes the all-ok outcome
order-independent). -/
def ConnectorConfig.secretsList : ConnectorConfig → List SecretConfig
  | .V0_1_0 c => c.meta.secrets.getD []
  | .V0_0_0 _ => []

/-- Body of the loop in `ConnectorConfig::validate_secret_names`. -/
def validateAll : List SecretConfig → Except String Unit
  | [] => .ok ()
  | sc :: rest =>
    match SecretName.validate sc.name.inner with
    | .ok _ => validateAll rest
    | .error e => .error e

/-- `ConnectorConfig::validate_secret_names`. -/
def ConnectorConfig.validateSecretNames (c : ConnectorConfig) : Except String Unit :=
  validateAll c.secretsList

def ConnectorConfig.meta : ConnectorConfig → MetaConfig
  | .V0_0_0 c => c.meta
  | .V0_1_0 c => c.meta

def ConnectorConfig.direction (c : ConnectorConfig) : Direction :=
  c.meta.direction

def ConnectorConfig.image (c : ConnectorConfig) : String :=
  c.meta.image

/-! ## Serialization (the serde `Serialize` derives, tree-level)

Struct fields are emitted in declaration order; `skip_serializing_if =
"Option::is_none"` fields are omitted entirely when absent.  The
internally-tagged enum (`#[serde(tag = "apiVersion")]`) emits the tag entry
first, then the payload's entries. -/

def producerEntries (p : ProducerParameters) : List (String × YValue) :=
  (match p.linger with
    | some d => [("linger", .duration d)]
    | none => []) ++
  (match p.compression with
    | some c => [("compression", .str c.toStr)]
    | none => []) ++
  (match p.batch_size with
    | some b => [("batch-size", .bytesize b)]
    | none => [])

def serializeProducer (p : ProducerParameters) : YValue :=
  .map (producerEntries p)

def consumerEntries (c : ConsumerParameters) : List (String × YValue) :=
  (match c.partition with
    | some p => [("partition", .nat p)]
    | none => []) ++
  (match c.max_bytes with
    | some b => [("max_bytes", .bytesize b)]
    | none => [])

def serializeConsumer (c : ConsumerParameters) : YValue :=
  .map (consumerEntries c)

def serializeSecretConfig (sc : SecretConfig) : YValue :=
  .map [("name", .str sc.name.inner)]

def serializeMetaEntries (m : MetaConfig) : List (String × YValue) :=
  [("name", .str m.name), ("type", .str m.type_),
   ("topic", .str m.topic), ("version", .str m.version)] ++
  (match m.producer with
    | some p => [("producer", serializeProducer p)]
    | none => []) ++
  (match m.consumer with
    | some c => [("consumer", serializeConsumer c)]
    | none => []) ++
  (match m.secrets with
    | some s => [("secrets", .seq (s.map serializeSecretConfig))]
    | none => [])

/-- Entries of a serialized `ConnectorConfigV1`: `meta`, then (flattened) the
optional transformation config under its wire key. -/
def serializeV1Entries (c : ConnectorConfigV1) : List (String × YValue) :=
  ("meta", .map (serializeMetaEntries c.meta)) ::
  (match c.transforms with
    | some t => [("transforms", .seq (t.transforms.map .str))]
    | none => [])

/-- Top-level entries of the internally-tagged serialization: the
`apiVersion` tag entry first, then the payload's entries. -/
def serializeTaggedEntries : ConnectorConfig → List (String × YValue)
  | .V0_0_0 c => ("apiVersion", .str "0.0.0") :: serializeV1Entries c
  | .V0_1_0 c => ("apiVersion", .str "0.1.0") :: serializeV1Entries c

/-- `Serialize` for the internally-tagged `ConnectorConfig`. -/
def ConnectorConfig.serialize (c : ConnectorConfig) : YValue :=
  .map (serializeTaggedEntries c)

/-! ## Deserialization (the serde derives and the hand-written impls) -/

/-- First binding of a key in a decoded mapping. -/
def ylookup (k : String) : List (String × YValue) → Option YValue
  | [] => none
  | kv :: rest => if kv.1 == k then some kv.2 else ylookup k rest

/-- Drop every binding of a key: the `#[serde(flatten)]` capture in
`VersionedConfig` hands the payload decoder all entries except `apiVersion`. -/
def yremove (k : String) (l : List (String × YValue)) : List (String × YValue) :=
  l.filter fun kv => !(kv.1 == k)

/-- Required string field of a struct (serde derive behavior). -/
def reqStr (kvs : List (String × YValue)) (k : String) : Except String String :=
  match ylookup k kvs with
  | some (.str s) => .ok s
  | some _ => .error ("invalid type for field `" ++ k ++ "`")
  | none => .error ("missing field `" ++ k ++ "`")

def parseDuration (v : YValue) : Except String Nat :=
  match v with
  | .duration d => .ok d
  | _ => .error "invalid value: expected a duration"

/-- `bytesize_serde` accepts a bare integer (bytes) or a unit string. -/
def parseByteSize (v : YValue) : Except String Nat :=
  match v with
  | .bytesize b => .ok b
  | .nat n => .ok n
  | _ => .error "invalid value: expected parsable string"

def parseCompression (v : YValue) : Except String Compression :=
  match v with
  | .str s => Compression.fromStr s
  | _ => .error "invalid type: expected a compression string"

def parseNat (v : YValue) : Except String Nat :=
  match v with
  | .nat n => .ok n
  | _ => .error "invalid type: expected an integer"

/-- Optional field: missing or `null` decodes to `None` (serde `Option` +
`default`); present decodes through the inner parser. -/
def optField (α : Type) (kvs : List (String × YValue)) (k : String)
    (p : YValue → Except String α) : Except String (Option α) :=
  match ylookup k kvs with
  | none => .ok none
  | some .null => .ok none
  | some v =>
    match p v with
    | .ok a => .ok (some a)
    | .error e => .error e

def parseProducer (v : YValue) : Except String ProducerParameters :=
  match v with
  | .map kvs =>
    match optField Nat kvs "linger" parseDuration with
    | .error e => .error e
    | .ok linger =>
      match optField Compression kvs "compression" parseCompression with
      | .error e => .error e
      | .ok compression =>
        -- `rename = "batch-size"` with `alias = "batch_size"`
        match (match ylookup "batch-size" kvs with
               | some bv => some bv
               | none => ylookup "batch_size" kvs) with
        | none => .ok ⟨linger, compression, none⟩
        | some .null => .ok ⟨linger, compression, none⟩
        | some bv =>
          match parseByteSize bv with
          | .ok b => .ok ⟨linger, compression, some b⟩
          | .error e => .error e
  | _ => .error "invalid type: expected a map"

def parseConsumer (v : YValue) : Except String ConsumerParameters :=
  match v with
  | .map kvs =>
    match optField Nat kvs "partition" parseNat with
    | .error e => .error e
    | .ok partition =>
      match optField Nat kvs "max_bytes" parseByteSize with
      | .error e => .error e
      | .ok max_bytes => .ok ⟨partition, max_bytes⟩
  | _ => .error "invalid type: expected a map"

/-- `SecretConfig` derive: a map with the validated `name` field. -/
def parseSecretConfig (v : YValue) : Except String SecretConfig :=
  match v with
  | .map kvs =>
    match ylookup "name" kvs with
    | some nv =>
      match SecretName.deserialize nv with
      | .ok n => .ok ⟨n⟩
      | .error e => .error e
    | none => .error "missing field `name`"
  | _ => .error "invalid type: expected a map"

/-- Sequence decode: front to back, aborting at the first failing element. -/
def parseSecretSeq : List YValue → Except String (List SecretConfig)
  | [] => .ok []
  | v :: rest =>
    match parseSecretConfig v with
    | .error e => .error e
    | .ok sc =>
      match parseSecretSeq rest with
      | .error e => .error e
      | .ok scs => .ok (sc :: scs)

def parseSecretList (v : YValue) : Except String (List SecretConfig) :=
  match v with
  | .seq items => parseSecretSeq items
  | _ => .error "invalid type: expected a sequence"

/-- Modelled from the spec: the external transformation-pipeline decoder,
elementwise over the opaque steps. -/
def parseTransformSeq : List YValue → Except String (List String)
  | [] => .ok []
  | .str s :: rest =>
    match parseTransformSeq rest with
    | .error e => .error e
    | .ok l => .ok (s :: l)
  | _ :: _ => .error "invalid type: expected a transformation step"

def parseTransformation (v : YValue) : Except String TransformationConfig :=
  match v with
  | .seq items =>
    match parseTransformSeq items with
    | .ok l => .ok ⟨l⟩
    | .error e => .error e
  | _ => .error "invalid type: expected a sequence"

def parseMeta (v : YValue) : Except String MetaConfig :=
  match v with
  | .map kvs =>
    match reqStr kvs "name" with
    | .error e => .error e
    | .ok nm =>
      match reqStr kvs "type" with
      | .error e => .error e
      | .ok ty =>
        match reqStr kvs "topic" with
        | .error e => .error e
        | .ok tp =>
          match reqStr kvs "version" with
          | .error e => .error e
          | .ok ver =>
            match optField ProducerParameters kvs "producer" parseProducer with
            | .error e => .error e
            | .ok producer =>
              match optField ConsumerParameters kvs "consumer" parseConsumer with
              | .error e => .error e
              | .ok consumer =>
                match optField (List SecretConfig) kvs "secrets" parseSecretList with
                | .error e => .error e
                | .ok secrets => .ok ⟨nm, ty, tp, ver, producer, consumer, secrets⟩
  | _ => .error "invalid type: expected a map"

/-- `ConnectorConfigV1` decode: required `meta`, plus the flattened optional
transformation config under its wire key. -/
def parseV1 (v : YValue) : Except String ConnectorConfigV1 :=
  match v with
  | .map kvs =>
    match ylookup "meta" kvs with
    | none => .error "missing field `meta`"
    | some mv =>
      match parseMeta mv with
      | .error e => .error e
      | .ok m =>
        match ylookup "transforms" kvs with
        | none => .ok ⟨m, none⟩
        | some tv =>
          match parseTransformation tv with
          | .ok t => .ok ⟨m, some t⟩
          | .error e => .error e
  | _ => .error "invalid type: expected a map"

/-- The serde-derived error for an `apiVersion` value outside the two
accepted literals. -/
def unknownVariantMsg (s : String) : String :=
  "unknown variant `" ++ s ++ "`, expected `0.0.0` or `0.1.0`"

/-- The hand-written `Deserialize` for `ConnectorConfig`: sniff `apiVersion`
(absent ⇒ version 0.0.0), then decode the remaining entries as a
`ConnectorConfigV1` and wrap it in the matching variant. -/
def parseConnectorConfig (v : YValue) : Except String ConnectorConfig :=
  match v with
  | .map kvs =>
    match ylookup "apiVersion" kvs with
    | none =>
      match parseV1 (.map (yremove "apiVersion" kvs)) with
      | .ok c => .ok (.V0_0_0 c)
      | .error e => .error e
    | some (.str s) =>
      if s == "0.0.0" then
        match parseV1 (.map (yremove "apiVersion" kvs)) with
        | .ok c => .ok (.V0_0_0 c)
        | .error e => .error e
      else if s == "0.1.0" then
        match parseV1 (.map (yremove "apiVersion" kvs)) with
        | .ok c => .ok (.V0_1_0 c)
        | .error e => .error e
      else .error (unknownVariantMsg s)
    | some _ => .error "apiVersion: invalid type, expected a version string"
  | _ => .error "invalid type: expected a map"

/-- `ConnectorConfig::from_value` / the tree-level core of
`ConnectorConfig::config_from_str`: decode, then run
`validate_secret_names`. -/
def configFromValue (v : YValue) : Except String ConnectorConfig :=
  match parseConnectorConfig v with
  | .error e => .error e
  | .ok c =>
    match c.validateSecretNames with
    | .error e => .error e
    | .ok _ => .ok c

/-! ## Spec-side definitions

Statements of the secret-name grammar and related notions, written from the
specification's words, to be compared with the source-derived functions. -/

/-- The secret-name grammar as the spec states it: non-empty, every character
ASCII alphanumeric or underscore, first character not an ASCII digit. -/
def secretGrammarB (s : String) : Bool :=
  !s.toList.isEmpty &&
  s.toList.all (fun c => isAsciiAlphanumeric c || c == '_') &&
  (match s.toList.head? with
   | some c => !isAsciiDigit c
   | none => true)

/-- The message `SecretName::validate` produces on a given (invalid) input. -/
def secretErrOf (s : String) : String :=
  match SecretName.validate s with
  | .error e => e
  | .ok _ => ""

/-- All secret names declared in a payload satisfy the grammar. -/
def payloadSecretsValidB (c : ConnectorConfigV1) : Bool :=
  (c.meta.secrets.getD []).all fun sc => secretGrammarB sc.name.inner

/-- A one-secret-entry document node `{name: n}` as it appears in the
`meta.secrets` sequence of the wire form. -/
def secretItemY (n : String) : YValue :=
  .map [("name", .str n)]

/-- A family of concrete documents: optional `apiVersion` tag, a fixed valid
`meta` section, and the given list of declared secret names. -/
def secretsDoc (tag : Option String) (ns : List String) : YValue :=
  .map ((match tag with
          | some t => [("apiVersion", .str t)]
          | none => []) ++
        [("meta", .map
          [("name", .str "test"), ("type", .str "test-type"),
           ("topic", .str "test-topic"), ("version", .str "0.1.0"),
           ("secrets", .seq (ns.map secretItemY))])])

/-! ## Helper lemmas -/

theorem toList_append (a b : String) : (a ++ b).toList = a.toList ++ b.toList :=
  String.data_append a b

/-- An infix of `b` is an infix of `a ++ b`. -/
theorem strInfix_right (pat : List Char) (a b : String)
    (h : pat <:+: b.toList) : pat <:+: (a ++ b).toList := by
  rw [toList_append]
  exact h.trans (List.IsSuffix.isInfix ⟨a.toList, rfl⟩)

/-- The middle of a three-part concatenation is an infix. -/
theorem strInfix_middle (a mid b : String) :
    mid.toList <:+: (a ++ mid ++ b).toList := by
  rw [toList_append, toList_append]
  exact ⟨a.toList, b.toList, rfl⟩

/-- The source validation routine accepts exactly the spec's grammar. -/
theorem validate_ok_iff (s : String) :
    SecretName.validate s = .ok () ↔ secretGrammarB s = true := by
  unfold SecretName.validate secretGrammarB
  cases h : s.toList with
  | nil => simp [h]
  | cons c cs =>
    by_cases hall : (c :: cs).all (fun c => isAsciiAlphanumeric c || c == '_') = true
    · by_cases hd : isAsciiDigit c = true
      · simp [hall, hd, List.headI]
      · simp [hall, List.headI, hd]
    · have hall' : ((c :: cs).all fun c => isAsciiAlphanumeric c || c == '_') = false := by
        cases hb : (c :: cs).all fun c => isAsciiAlphanumeric c || c == '_' with
        | true => exact absurd hb hall
        | false => rfl
      simp [hall']

/-- If a key does not occur, filtering it out is the identity. -/
theorem yremove_of_lookup_none (k : String) (l : List (String × YValue))
    (h : ylookup k l = none) : yremove k l = l := by
  induction l with
  | nil => rfl
  | cons kv rest ih =>
    unfold ylookup at h
    by_cases hk : (kv.1 == k) = true
    · rw [if_pos hk] at h
      exact absurd h (by simp)
    · rw [if_neg hk] at h
      have hk' : (kv.1 == k) = false := by
        cases hb : (kv.1 == k) with
        | true => exact absurd hb hk
        | false => rfl
      have h2 := ih h
      simp only [yremove, List.filter_cons, hk', Bool.not_false, if_pos]
      simp only [yremove] at h2
      rw [h2]

/-- On an invalid input, `validate` produces exactly the message recorded by
`secretErrOf`. -/
theorem validate_error_of_invalid (s : String) (h : secretGrammarB s = false) :
    SecretName.validate s = .error (secretErrOf s) := by
  unfold secretErrOf
  cases hv : SecretName.validate s with
  | error e => rfl
  | ok u =>
    cases u
    rw [(validate_ok_iff s).mp hv] at h
    exact absurd h (by simp)

/-- Decoding the wire form of a declared-secrets sequence: succeeds with the
names in order when all are valid, otherwise aborts with the validation error
of the first invalid name in declaration order. -/
theorem parseSecretSeq_spec (ns : List String) :
    parseSecretSeq (ns.map secretItemY) =
      match ns.find? (fun n => !(secretGrammarB n)) with
      | some bad => .error (secretErrOf bad)
      | none => .ok (ns.map fun n => ⟨⟨n⟩⟩) := by
  induction ns with
  | nil => rfl
  | cons n ns ih =>
    have hlook : ylookup "name" [("name", YValue.str n)] = some (.str n) := by
      simp [ylookup]
    simp only [List.map_cons, parseSecretSeq, parseSecretConfig, secretItemY,
      hlook, SecretName.deserialize, List.find?_cons]
    cases hg : secretGrammarB n with
    | true =>
      rw [(validate_ok_iff n).mpr hg]
      simp only [ih, hg, Bool.not_true]
      cases List.find? (fun n => !secretGrammarB n) ns <;> rfl
    | false =>
      rw [validate_error_of_invalid n hg]
      simp [hg]

/-- The post-parse validation loop passes on any list of grammar-valid
secrets. -/
theorem validateAll_ok (l : List SecretConfig)
    (h : ∀ sc ∈ l, secretGrammarB sc.name.inner = true) :
    validateAll l = .ok () := by
  induction l with
  | nil => rfl
  | cons sc rest ih =>
    unfold validateAll
    rw [(validate_ok_iff sc.name.inner).mpr (h sc (by simp))]
    exact ih fun x hx => h x (by simp [hx])

/-- Round trip of one serialized secret entry list, given validity. -/
theorem parseSecretSeq_roundtrip (l : List SecretConfig)
    (h : ∀ sc ∈ l, secretGrammarB sc.name.inner = true) :
    parseSecretSeq (l.map serializeSecretConfig) = .ok l := by
  induction l with
  | nil => rfl
  | cons sc rest ih =>
    have hlook : ylookup "name" [("name", YValue.str sc.name.inner)]
        = some (.str sc.name.inner) := by
      simp [ylookup]
    simp only [List.map_cons, parseSecretSeq, parseSecretConfig,
      serializeSecretConfig, hlook, SecretName.deserialize]
    rw [(validate_ok_iff sc.name.inner).mpr (h sc (by simp))]
    simp [ih fun x hx => h x (by simp [hx])]

/-- Round trip of the opaque transformation steps. -/
theorem parseTransformSeq_roundtrip (l : List String) :
    parseTransformSeq (l.map .str) = .ok l := by
  induction l with
  | nil => rfl
  | cons s rest ih => simp [parseTransformSeq, ih]

/-- Round trip of the compression codec. -/
theorem compression_roundtrip (c : Compression) :
    Compression.fromStr c.toStr = .ok c := by
  cases c <;> rfl

/-- Round trip of the producer parameters record. -/
theorem parseProducer_roundtrip (p : ProducerParameters) :
    parseProducer (.map (producerEntries p)) = .ok p := by
  obtain ⟨l, c, b⟩ := p
  cases l <;> cases c <;> cases b <;>
    simp [parseProducer, producerEntries, optField, ylookup,
      parseDuration, parseByteSize, parseCompression, compression_roundtrip]

/-- Round trip of the consumer parameters record. -/
theorem parseConsumer_roundtrip (c : ConsumerParameters) :
    parseConsumer (.map (consumerEntries c)) = .ok c := by
  obtain ⟨p, b⟩ := c
  cases p <;> cases b <;>
    simp [parseConsumer, consumerEntries, optField, ylookup,
      parseNat, parseByteSize]

/-- Round trip of the meta section, given valid declared secret names. -/
theorem parseMeta_roundtrip (m : MetaConfig)
    (h : ∀ sc ∈ m.secrets.getD [], secretGrammarB sc.name.inner = true) :
    parseMeta (.map (serializeMetaEntries m)) = .ok m := by
  obtain ⟨nm, ty, tp, ver, pr, co, se⟩ := m
  simp only [Option.getD] at h
  cases pr <;> cases co <;> cases se <;>
    simp_all [parseMeta, serializeMetaEntries, serializeProducer,
      serializeConsumer, reqStr, optField, ylookup, parseSecretList,
      parseSecretSeq_roundtrip, parseProducer_roundtrip,
      parseConsumer_roundtrip]

/-- No `apiVersion` entry appears among serialized payload entries. -/
theorem ylookup_apiVersion_serializeV1 (c : ConnectorConfigV1) :
    ylookup "apiVersion" (serializeV1Entries c) = none := by
  obtain ⟨m, tf⟩ := c
  cases tf <;> simp [serializeV1Entries, ylookup]

/-- Round trip of the payload, given valid declared secret names. -/
theorem parseV1_roundtrip (c : ConnectorConfigV1)
    (h : ∀ sc ∈ c.meta.secrets.getD [], secretGrammarB sc.name.inner = true) :
    parseV1 (.map (serializeV1Entries c)) = .ok c := by
  obtain ⟨m, tf⟩ := c
  cases tf with
  | none =>
    simp [parseV1, serializeV1Entries, ylookup, parseMeta_roundtrip m h]
  | some t =>
    obtain ⟨steps⟩ := t
    simp [parseV1, serializeV1Entries, ylookup, parseMeta_roundtrip m h,
      parseTransformation, parseTransformSeq_roundtrip]

/-- Removing the tag entry from a tagged serialization leaves exactly the
payload entries. -/
theorem yremove_tag (tag : String) (c : ConnectorConfigV1) :
    yremove "apiVersion" (("apiVersion", YValue.str tag) :: serializeV1Entries c)
      = serializeV1Entries c := by
  have hid := yremove_of_lookup_none "apiVersion" (serializeV1Entries c)
    (ylookup_apiVersion_serializeV1 c)
  simp only [yremove, List.filter_cons] at hid ⊢
  simp [hid]

/-! ## Claims -/

/-- C4: `SecretName` parsing from a string succeeds iff the string is
non-empty, every character is ASCII alphanumeric or underscore, and the first
character is not an ASCII digit; the stored value is the input unchanged (no
normalization); on failure the error names the violated rule (the empty case
carries its dedicated message) and embeds the offending input. -/
theorem C4_secret_name_parse (s : String) :
    (SecretName.fromStr s = .ok ⟨s⟩ ↔ secretGrammarB s = true)
    ∧ (∀ n, SecretName.fromStr s = .ok n → n = ⟨s⟩)
    ∧ (s = "" → SecretName.fromStr s = .error "Secret name cannot be empty")
    ∧ (∀ e, SecretName.fromStr s = .error e → s ≠ "" → s.toList <:+: e.toList) := by
  refine ⟨?_, ?_, ?_, ?_⟩
  · constructor
    · intro h
      apply (validate_ok_iff s).mp
      unfold SecretName.fromStr at h
      cases hv : SecretName.validate s with
      | ok u => cases u; rfl
      | error e => rw [hv] at h; exact absurd h (by simp)
    · intro h
      unfold SecretName.fromStr
      rw [(validate_ok_iff s).mpr h]
  · intro n h
    unfold SecretName.fromStr at h
    cases hv : SecretName.validate s with
    | ok u => rw [hv] at h; simpa using h.symm
    | error e => rw [hv] at h; exact absurd h (by simp)
  · intro he
    subst he
    rfl
  · intro e h hne
    unfold SecretName.fromStr at h
    cases hv : SecretName.validate s with
    | ok u => rw [hv] at h; exact absurd h (by simp)
    | error e' =>
      rw [hv] at h
      have he : e' = e := by simpa using h
      subst he
      unfold SecretName.validate at hv
      have hnil : s.toList ≠ [] := by
        intro hl
        exact hne (String.ext (by simpa [String.toList] using hl))
      rw [if_neg (by simpa using fun hl => hnil (List.length_eq_zero.mp hl))] at hv
      by_cases hall : (!s.toList.all fun c => isAsciiAlphanumeric c || c == '_') = true
      · rw [if_pos hall] at hv
        have := (Except.error.injEq _ _).mp hv.symm
        rw [this]
        exact strInfix_middle "Secret name `" s
          "` can only contain alphanumeric ASCII characters and underscores"
      · rw [if_neg hall] at hv
        by_cases hd : isAsciiDigit s.toList.headI = true
        · rw [if_pos hd] at hv
          have := (Except.error.injEq _ _).mp hv.symm
          rw [this]
          exact strInfix_middle "Secret name `" s "` cannot start with a number"
        · rw [if_neg hd] at hv
          exact absurd hv (by simp)

/-- C4 witness: a concrete invalid input and a concrete valid one. -/
theorem C4_secret_name_parse_witness :
    ((SecretName.fromStr "1secret" = .ok ⟨"1secret"⟩ ↔ secretGrammarB "1secret" = true)
    ∧ (∀ n, SecretName.fromStr "1secret" = .ok n → n = ⟨"1secret"⟩)
    ∧ ("1secret" = "" → SecretName.fromStr "1secret" = .error "Secret name cannot be empty")
    ∧ (∀ e, SecretName.fromStr "1secret" = .error e → "1secret" ≠ "" →
        "1secret".toList <:+: e.toList))
    ∧ SecretName.fromStr "se_cret2" = .ok ⟨"se_cret2"⟩ :=
  ⟨C4_secret_name_parse "1secret", rfl⟩

/-- C5 (code bug evidence): the derived `Default` construction path produces
`SecretName { inner: "" }`, which the crate's own validation routine rejects
as empty, so not every live `SecretName` satisfies the grammar. -/
theorem C5_default_instance_invalid :
    SecretName.validate SecretName.defaultInstance.inner =
      .error "Secret name cannot be empty"
    ∧ secretGrammarB SecretName.defaultInstance.inner = false :=
  ⟨rfl, rfl⟩

/-- C6: for the legacy variant the `secrets()` accessor is the empty set, no
matter what the wrapped payload's `meta.secrets` holds. -/
theorem C6_legacy_secrets_empty (p : ConnectorConfigV1) :
    ConnectorConfig.secrets (.V0_0_0 p) = ∅ :=
  rfl

/-- C8: `direction()` is Source exactly when the `type` string ends with the
character suffix `-source`, and Destination in every other case. -/
theorem C8_direction_by_suffix (m : MetaConfig) :
    (m.direction = Direction.source ↔ SOURCE_SUFFIX.toList <:+ m.type_.toList)
    ∧ (¬ SOURCE_SUFFIX.toList <:+ m.type_.toList → m.direction = Direction.dest) := by
  unfold MetaConfig.direction strEndsWith
  by_cases h : SOURCE_SUFFIX.toList <:+ m.type_.toList
  · rw [if_pos (List.isSuffixOf_iff_suffix.mpr h)]
    exact ⟨⟨fun _ => h, fun _ => rfl⟩, fun hc => absurd h hc⟩
  · rw [if_neg (fun hb => h (List.isSuffixOf_iff_suffix.mp hb))]
    exact ⟨⟨fun he => absurd he (by decide), fun hs => absurd hs h⟩, fun _ => rfl⟩

/-- C8 witness: the spec's two examples, `mqtt-source` and `kafka-sink`. -/
theorem C8_direction_by_suffix_witness :
    MetaConfig.direction ⟨"", "mqtt-source", "", "", none, none, none⟩
      = Direction.source
    ∧ MetaConfig.direction ⟨"", "kafka-sink", "", "", none, none, none⟩
      = Direction.dest :=
  ⟨(C8_direction_by_suffix ⟨"", "mqtt-source", "", "", none, none, none⟩).1.mpr
      (by decide),
   (C8_direction_by_suffix ⟨"", "kafka-sink", "", "", none, none, none⟩).2
      (by decide)⟩

/-- C9: `image()` is exactly `"<image-prefix>-<type>:<version>"`, with no
escaping of `type`/`version`; on type `mqtt`, version `0.1.0` it is exactly
`infinyon/fluvio-connect-mqtt:0.1.0`. -/
theorem C9_image_format (m : MetaConfig) :
    m.image = "infinyon/fluvio-connect" ++ "-" ++ m.type_ ++ ":" ++ m.version
    ∧ MetaConfig.image ⟨"", "mqtt", "", "0.1.0", none, none, none⟩ =
        "infinyon/fluvio-connect-mqtt:0.1.0" :=
  ⟨rfl, rfl⟩

/-- C1: for any payload whose declared secret names are valid, serializing
`V0_1_0(P)` and parsing it back yields exactly `V0_1_0(P)`; the emitted
document carries the `apiVersion: 0.1.0` entry; and every absent optional
field is omitted from the emitted document entirely. -/
theorem C1_tagged_roundtrip (P : ConnectorConfigV1)
    (h : payloadSecretsValidB P = true) :
    configFromValue (ConnectorConfig.serialize (.V0_1_0 P)) = .ok (.V0_1_0 P)
    ∧ ylookup "apiVersion" (serializeTaggedEntries (.V0_1_0 P))
        = some (.str "0.1.0")
    ∧ (P.meta.producer = none →
        ylookup "producer" (serializeMetaEntries P.meta) = none)
    ∧ (P.meta.consumer = none →
        ylookup "consumer" (serializeMetaEntries P.meta) = none)
    ∧ (P.meta.secrets = none →
        ylookup "secrets" (serializeMetaEntries P.meta) = none)
    ∧ (P.transforms = none →
        ylookup "transforms" (serializeTaggedEntries (.V0_1_0 P)) = none)
    ∧ (∀ pp, P.meta.producer = some pp → pp.linger = none →
        ylookup "linger" (producerEntries pp) = none)
    ∧ (∀ pp, P.meta.producer = some pp → pp.compression = none →
        ylookup "compression" (producerEntries pp) = none)
    ∧ (∀ pp, P.meta.producer = some pp → pp.batch_size = none →
        ylookup "batch-size" (producerEntries pp) = none)
    ∧ (∀ cc, P.meta.consumer = some cc → cc.partition = none →
        ylookup "partition" (consumerEntries cc) = none)
    ∧ (∀ cc, P.meta.consumer = some cc → cc.max_bytes = none →
        ylookup "max_bytes" (consumerEntries cc) = none) := by
  have hv : ∀ sc ∈ P.meta.secrets.getD [], secretGrammarB sc.name.inner = true := by
    intro sc hsc
    exact List.all_eq_true.mp h sc hsc
  refine ⟨?_, ?_, ?_, ?_, ?_, ?_, ?_, ?_, ?_, ?_, ?_⟩
  · simp [configFromValue, ConnectorConfig.serialize, parseConnectorConfig,
      serializeTaggedEntries, ylookup, yremove_tag, parseV1_roundtrip P hv,
      ConnectorConfig.validateSecretNames, ConnectorConfig.secretsList,
      validateAll_ok _ hv]
  · simp [serializeTaggedEntries, ylookup]
  · intro hp
    cases hc : P.meta.consumer <;> cases hs : P.meta.secrets <;>
      simp [serializeMetaEntries, ylookup, hp, hc, hs]
  · intro hc
    cases hp : P.meta.producer <;> cases hs : P.meta.secrets <;>
      simp [serializeMetaEntries, ylookup, hp, hc, hs]
  · intro hs
    cases hp : P.meta.producer <;> cases hc : P.meta.consumer <;>
      simp [serializeMetaEntries, ylookup, hp, hc, hs]
  · intro ht
    cases hp : P.meta.producer <;> cases hc : P.meta.consumer <;>
      cases hs : P.meta.secrets <;>
      simp [serializeTaggedEntries, serializeV1Entries, serializeMetaEntries,
        ylookup, ht, hp, hc, hs]
  · intro pp _ hl
    cases hc : pp.compression <;> cases hb : pp.batch_size <;>
      simp [producerEntries, ylookup, hl, hc, hb]
  · intro pp _ hc
    cases hl : pp.linger <;> cases hb : pp.batch_size <;>
      simp [producerEntries, ylookup, hl, hc, hb]
  · intro pp _ hb
    cases hl : pp.linger <;> cases hc : pp.compression <;>
      simp [producerEntries, ylookup, hl, hc, hb]
  · intro cc _ hp
    cases hb : cc.max_bytes <;> simp [consumerEntries, ylookup, hp, hb]
  · intro cc _ hb
    cases hp : cc.partition <;> simp [consumerEntries, ylookup, hp, hb]

/-- C1 witness: the round trip at a concrete minimal payload. -/
theorem C1_tagged_roundtrip_witness :
    payloadSecretsValidB ⟨⟨"n", "t", "tp", "v", none, none, none⟩, none⟩ = true
    ∧ configFromValue (ConnectorConfig.serialize
        (.V0_1_0 ⟨⟨"n", "t", "tp", "v", none, none, none⟩, none⟩))
      = .ok (.V0_1_0 ⟨⟨"n", "t", "tp", "v", none, none, none⟩, none⟩) :=
  ⟨rfl, (C1_tagged_roundtrip ⟨⟨"n", "t", "tp", "v", none, none, none⟩, none⟩ rfl).1⟩

/-- C2: a document without `apiVersion` parses exactly as the same document
with `apiVersion: 0.0.0` prepended, and any successful untagged parse is the
legacy `V0_0_0` variant. -/
theorem C2_untagged_is_legacy (kvs : List (String × YValue))
    (h : ylookup "apiVersion" kvs = none) :
    configFromValue (.map kvs)
      = configFromValue (.map (("apiVersion", .str "0.0.0") :: kvs))
    ∧ (∀ c, configFromValue (.map kvs) = .ok c → ∃ p, c = .V0_0_0 p) := by
  have hid : yremove "apiVersion" kvs = kvs := yremove_of_lookup_none _ _ h
  have hdrop : yremove "apiVersion" (("apiVersion", YValue.str "0.0.0") :: kvs)
      = kvs := by
    simp only [yremove, List.filter_cons] at hid ⊢
    simp [hid]
  constructor
  · simp [configFromValue, parseConnectorConfig, ylookup, h, hid, hdrop]
  · intro c hc
    simp only [configFromValue, parseConnectorConfig, h, hid] at hc
    cases hp : parseV1 (.map kvs) with
    | error e => rw [hp] at hc; exact absurd hc (by simp)
    | ok p =>
      rw [hp] at hc
      simp only [ConnectorConfig.validateSecretNames, ConnectorConfig.secretsList,
        validateAll] at hc
      exact ⟨p, by simpa using hc.symm⟩

/-- C2 witness: a concrete untagged document. -/
theorem C2_untagged_is_legacy_witness :
    ylookup "apiVersion" [("meta", YValue.map
      [("name", .str "a"), ("type", .str "b"),
       ("topic", .str "c"), ("version", .str "d")])] = none
    ∧ configFromValue (.map [("meta", YValue.map
        [("name", .str "a"), ("type", .str "b"),
         ("topic", .str "c"), ("version", .str "d")])])
      = configFromValue (.map (("apiVersion", .str "0.0.0") ::
        [("meta", YValue.map
          [("name", .str "a"), ("type", .str "b"),
           ("topic", .str "c"), ("version", .str "d")])]))
    ∧ (∀ c, configFromValue (.map [("meta", YValue.map
        [("name", .str "a"), ("type", .str "b"),
         ("topic", .str "c"), ("version", .str "d")])]) = .ok c →
        ∃ p, c = .V0_0_0 p) :=
  ⟨rfl, C2_untagged_is_legacy _ rfl⟩

/-- C3: a present `apiVersion` string other than the two accepted literals
makes the parse fail, and the error message embeds both accepted literals. -/
theorem C3_unknown_version_rejected (kvs : List (String × YValue)) (s : String)
    (h1 : ylookup "apiVersion" kvs = some (.str s))
    (h2 : s ≠ "0.0.0") (h3 : s ≠ "0.1.0") :
    configFromValue (.map kvs) = .error (unknownVariantMsg s)
    ∧ "0.0.0".toList <:+: (unknownVariantMsg s).toList
    ∧ "0.1.0".toList <:+: (unknownVariantMsg s).toList := by
  refine ⟨?_, ?_, ?_⟩
  · have hb2 : (s == "0.0.0") = false := by
      cases hb : s == "0.0.0" with
      | true => exact absurd (by simpa using hb) h2
      | false => rfl
    have hb3 : (s == "0.1.0") = false := by
      cases hb : s == "0.1.0" with
      | true => exact absurd (by simpa using hb) h3
      | false => rfl
    simp [configFromValue, parseConnectorConfig, h1, hb2, hb3]
  · exact strInfix_right _ ("unknown variant `" ++ s)
      "`, expected `0.0.0` or `0.1.0`" (by decide)
  · exact strInfix_right _ ("unknown variant `" ++ s)
      "`, expected `0.0.0` or `0.1.0`" (by decide)

/-- C3 witness: the rejection at the concrete value `v1` from the crate's own
test data. -/
theorem C3_unknown_version_rejected_witness :
    ylookup "apiVersion" [("apiVersion", YValue.str "v1")]
      = some (.str "v1")
    ∧ ("v1" : String) ≠ "0.0.0" ∧ ("v1" : String) ≠ "0.1.0"
    ∧ configFromValue (.map [("apiVersion", YValue.str "v1")])
        = .error (unknownVariantMsg "v1")
    ∧ "0.0.0".toList <:+: (unknownVariantMsg "v1").toList
    ∧ "0.1.0".toList <:+: (unknownVariantMsg "v1").toList := by
  refine ⟨rfl, by decide, by decide, ?_⟩
  exact C3_unknown_version_rejected [("apiVersion", YValue.str "v1")] "v1"
    rfl (by decide) (by decide)

/-- C7: over the whole parse path, declared secret names are validated; a
document whose secrets contain an invalid name fails with the validation
error of the first invalid name in declaration order, and otherwise every
name was checked and the parse succeeds with all names in order. -/
theorem C7_first_invalid_secret_reported (ns : List String) :
    configFromValue (secretsDoc (some "0.1.0") ns) =
      match ns.find? (fun n => !(secretGrammarB n)) with
      | some bad => .error (secretErrOf bad)
      | none => .ok (.V0_1_0 ⟨⟨"test", "test-type", "test-topic", "0.1.0",
          none, none, some (ns.map fun n => ⟨⟨n⟩⟩)⟩, none⟩) := by
  cases hfind : ns.find? (fun n => !(secretGrammarB n)) with
  | some bad =>
    have hs := parseSecretSeq_spec ns
    rw [hfind] at hs
    simp [configFromValue, parseConnectorConfig, secretsDoc, ylookup,
      yremove, parseV1, parseMeta, reqStr, optField, parseSecretList, hs]
  | none =>
    have hs := parseSecretSeq_spec ns
    rw [hfind] at hs
    have hvalid : ∀ sc ∈ ns.map (fun n => (⟨⟨n⟩⟩ : SecretConfig)),
        secretGrammarB sc.name.inner = true := by
      intro sc hsc
      simp only [List.mem_map] at hsc
      obtain ⟨n, hn, rfl⟩ := hsc
      have := List.find?_eq_none.mp hfind n hn
      simpa using this
    simp [configFromValue, parseConnectorConfig, secretsDoc, ylookup,
      yremove, parseV1, parseMeta, reqStr, optField, parseSecretList, hs,
      ConnectorConfig.validateSecretNames, ConnectorConfig.secretsList,
      validateAll_ok _ hvalid]

/-- C10: a document whose secrets contain an invalid name fails with that
name's validation error even when the document is untagged or tagged
`0.0.0` (the legacy variant): validation runs during structured decode. -/
theorem C10_legacy_parse_validates_secrets (ns : List String) (bad : String)
    (h : ns.find? (fun n => !(secretGrammarB n)) = some bad) :
    configFromValue (secretsDoc none ns) = .error (secretErrOf bad)
    ∧ configFromValue (secretsDoc (some "0.0.0") ns)
        = .error (secretErrOf bad) := by
  have hs := parseSecretSeq_spec ns
  rw [h] at hs
  constructor <;>
    simp [configFromValue, parseConnectorConfig, secretsDoc, ylookup,
      yremove, parseV1, parseMeta, reqStr, optField, parseSecretList, hs]

/-- C10 witness: the leading-digit name `1secret` from the crate's own test
data, inside an untagged and a `0.0.0`-tagged document. -/
theorem C10_legacy_parse_validates_secrets_witness :
    ["good_one", "1secret"].find? (fun n => !(secretGrammarB n))
      = some "1secret"
    ∧ configFromValue (secretsDoc none ["good_one", "1secret"])
        = .error (secretErrOf "1secret")
    ∧ configFromValue (secretsDoc (some "0.0.0") ["good_one", "1secret"])
        = .error (secretErrOf "1secret") :=
  ⟨by decide, C10_legacy_parse_validates_secrets ["good_one", "1secret"]
    "1secret" (by decide)⟩

end Fluvio
